import Mathlib

/-!
# Verification of the Blender window-dataset generation pipeline

Shallow embedding of the core of `Shakthi-Bala/blender_dataset_generator`
(three Blender Python scripts under `src/Blender_dataset/blender_scripts/`):

* `data_generation_no_background.py` — single-camera variant: in-FOV window
  pose sampling (`sample_window_pose_and_size`, `ensure_in_fov`,
  `all_corners_in_frame`), fallback handling in the render loop, the
  RGB/MASK material passes, and keypoint projection
  (`project_to_pixels`, `order_tl_tr_br_bl`).
* `data_generation_with_background.py` — same core procedures (identical
  bodies for the functions modelled here).
* `data_generator.py` — multi-camera variant: `sample_nonoverlap`,
  `place_windows`, `sync_twins`, `project_pixels` (no vertical flip),
  `order_tl_tr_br_bl`, and the collection-exclusion toggles
  `set_excludes_for_rgb` / `set_excludes_for_mask`.

Modelling conventions:
* Python floats are modelled as exact rationals (`ℚ`); Python `round`
  (round-half-to-even) is modelled exactly by `pyRound`.
* Blender's `world_to_camera_view` and the engine-owned
  `matrix_world @ vertex` computation are external collaborators; they are
  modelled as universally quantified pure functions (`Proj`,
  `WorldCorners`).  A window's world corners depend only on its
  scale/location/rotation, which is reflected by giving the corner
  function the type `Transform → List Vec3`.
* Python's `random.*` draws are modelled as explicit input streams
  (lists / structure fields); the seeded PRNG makes these streams a pure
  function of the seed.
* Python's `sorted` (stable, ascending by key) is modelled by the stable
  insertion sort `sortLe`.
-/

/-- A 3D vector of rationals (world points, and `world_to_camera_view`
results `(u, v, depth)`). -/
structure Vec3 where
  x : ℚ
  y : ℚ
  z : ℚ
deriving DecidableEq, Repr

/-- Integer pixel coordinate pair `(x, y)`. -/
abbrev Pix := ℤ × ℤ

/-- External collaborator: `world_to_camera_view(scene, cam, ·)` for one
fixed camera state.  Result components: `x = u`, `y = v` (normalized image
plane), `z = depth`. -/
abbrev Proj := Vec3 → Vec3

/- ----------------------------------------------------------------
Constants from the source configuration blocks.
---------------------------------------------------------------- -/

/-- `MIN_SKEW_DEG = 6.0` (both single-camera scripts). -/
def MIN_SKEW_DEG : ℚ := 6

/-- `MAX_SKEW_DEG = 15.0`. -/
def MAX_SKEW_DEG : ℚ := 15

/-- `WINDOW_SIZE_RANGE = (0.50, 1.10)` (square side length, meters). -/
def WINDOW_SIZE_RANGE : ℚ × ℚ := (1/2, 11/10)

/-- `BOARD_HALF_EXTENTS = (1.6, 1.2)`. -/
def BOARD_HALF_EXTENTS : ℚ × ℚ := (8/5, 6/5)

/-- `IMG_RES = (640, 648)`. -/
def IMG_RES : ℕ × ℕ := (640, 648)

/-- Default minimum separation `d = 0.38` of `sample_nonoverlap`
(`data_generator.py`). -/
def NONOVERLAP_MIN_SEP : ℚ := 19/50

/- ----------------------------------------------------------------
Geometry and projection utilities.
---------------------------------------------------------------- -/

/-- The visibility test applied per corner inside `all_corners_in_frame`:
`0.0 <= uvw.x <= 1.0 and 0.0 <= uvw.y <= 1.0 and uvw.z > 0.0`. -/
def inFrameB (uvw : Vec3) : Bool :=
  decide (0 ≤ uvw.x) && decide (uvw.x ≤ 1) &&
  decide (0 ≤ uvw.y) && decide (uvw.y ≤ 1) &&
  decide (0 < uvw.z)

/-- `all_corners_in_frame(cam, corners)` from
`data_generation_no_background.py` lines 263-268: returns `False` as soon
as one projected corner fails the visibility test, else `True`. -/
def all_corners_in_frame (p : Proj) (corners : List Vec3) : Bool :=
  corners.all (fun wp => inFrameB (p wp))

/-- Python's builtin `round` on an exact rational: round half to even. -/
def pyRound (q : ℚ) : ℤ :=
  let f : ℤ := ⌊q⌋
  let frac : ℚ := q - f
  if frac < 1/2 then f
  else if 1/2 < frac then f + 1
  else if Even f then f else f + 1

/-- `max lo (min hi x)` — the clamp written in both pixel-projection
functions (`max(0, min(W-1, x))`). -/
def clampI (lo hi x : ℤ) : ℤ := max lo (min hi x)

/-- Pointwise body of `project_to_pixels` from
`data_generation_no_background.py` lines 280-289 (identical in
`data_generation_with_background.py`):
`x = round(u*(W-1))`, `y = round((1-v)*(H-1))` (vertical flip), each
clamped into `[0, W-1]` / `[0, H-1]`.  The depth component `uvw.z` is not
read. -/
def pixel_of_uvw (uvw : Vec3) (W H : ℕ) : Pix :=
  (clampI 0 ((W : ℤ) - 1) (pyRound (uvw.x * ((W : ℚ) - 1))),
   clampI 0 ((H : ℤ) - 1) (pyRound ((1 - uvw.y) * ((H : ℚ) - 1))))

/-- `project_to_pixels(cam, world_points, W, H)`: maps each world point
through `world_to_camera_view` then to a clamped pixel. -/
def project_to_pixels (p : Proj) (wps : List Vec3) (W H : ℕ) : List Pix :=
  wps.map (fun wp => pixel_of_uvw (p wp) W H)

/-- Pointwise body of `project_pixels` from `data_generator.py` lines
292-299: `x = max(0, min(W-1, round(u*(W-1))))`,
`y = max(0, min(H-1, round(v*(H-1))))` — note: no vertical flip of `v`.
The depth component is not read. -/
def pixel_of_uvw_gen (uvw : Vec3) (W H : ℕ) : Pix :=
  (clampI 0 ((W : ℤ) - 1) (pyRound (uvw.x * ((W : ℚ) - 1))),
   clampI 0 ((H : ℤ) - 1) (pyRound (uvw.y * ((H : ℚ) - 1))))

/-- `project_pixels(cam, wpts, W, H)` of the multi-camera variant. -/
def project_pixels (p : Proj) (wps : List Vec3) (W H : ℕ) : List Pix :=
  wps.map (fun wp => pixel_of_uvw_gen (p wp) W H)

/-- Modelled from the spec: `to_pixel(u, v, W, H)` as §4.1 words it —
`x = round(u·(W-1))`, `y = round((1-v)·(H-1))` (vertical flip), "each
clamped into `[0, W-1]` / `[0, H-1]`".  The clamp is written in the
opposite nesting order from the source so that agreement with the source
is a theorem (for nonempty pixel ranges) rather than a definitional
restatement.  Tie-breaking of `round` is not pinned by the spec; Python's
half-to-even is used. -/
def to_pixel_spec (u v : ℚ) (W H : ℕ) : Pix :=
  (min ((W : ℤ) - 1) (max 0 (pyRound (u * ((W : ℚ) - 1)))),
   min ((H : ℤ) - 1) (max 0 (pyRound ((1 - v) * ((H : ℚ) - 1)))))

/- ----------------------------------------------------------------
Stable sorting (model of Python's `sorted`, which is stable ascending).
---------------------------------------------------------------- -/

/-- Insert `a` before the first element `b` with `le a b` (stable
insertion step). -/
def insertLe (le : α → α → Bool) (a : α) : List α → List α
  | [] => [a]
  | b :: l => if le a b then a :: b :: l else b :: insertLe le a l

/-- Stable insertion sort: for a total preorder `le`, sorts ascending and
keeps the original relative order of elements with equal keys — the
semantics of Python's `sorted`. -/
def sortLe (le : α → α → Bool) : List α → List α
  | [] => []
  | a :: l => insertLe le a (sortLe le l)

/-- The sort key of `order_tl_tr_br_bl`: lexicographic ascending on
`(-y, x)` (Python `key=lambda p: (-p[1], p[0])`). -/
def ptKeyLe (p q : Pix) : Bool :=
  decide (-p.2 < -q.2) || (decide (-p.2 = -q.2) && decide (p.1 ≤ q.1))

/-- Ascending-x key used for the within-pair sorts. -/
def ptXLe (p q : Pix) : Bool := decide (p.1 ≤ q.1)

/-- `order_tl_tr_br_bl(pxpts)` — identical in
`data_generation_no_background.py` lines 271-278 and `data_generator.py`
lines 301-305:
`s = sorted(pxpts, key=lambda p: (-p[1], p[0]))`;
`top = sorted(s[:2], key=x)`; `bot = sorted(s[2:], key=x)`;
`return [top[0], top[1], bot[1], bot[0]]`.
Callers always pass exactly 4 points; out-of-range indexing (which would
raise in Python) is modelled by `getD` with a junk default. -/
def order_tl_tr_br_bl (pxpts : List Pix) : List Pix :=
  let s := sortLe ptKeyLe pxpts
  let top := sortLe ptXLe (s.take 2)
  let bot := sortLe ptXLe (s.drop 2)
  [top.getD 0 (0, 0), top.getD 1 (0, 0), bot.getD 1 (0, 0), bot.getD 0 (0, 0)]

/- ----------------------------------------------------------------
Window objects and the in-FOV sampler (single-camera variants).
---------------------------------------------------------------- -/

/-- Material slot contents, abstracted to the role the material plays
(design note §9: the core only needs "this object currently renders as
role X"). -/
inductive Mat
  | winRGB
  | winMask
  | blackEmission
deriving DecidableEq, Repr

/-- The mutable attributes of a pooled window object that the pipeline
reads or writes: transform, visibility flags, and material slots.
Rotations are stored as the sampled degree triple; the source converts
them with `math.radians` before writing `rotation_euler`, a fixed
bijection that is absorbed into the abstract world-corner function. -/
structure WinObj where
  name : String
  scale : ℚ × ℚ × ℚ
  loc : Vec3
  rotDeg : ℚ × ℚ × ℚ
  hideRender : Bool
  hideViewport : Bool
  materials : List Mat
deriving DecidableEq, Repr

/-- The geometric part of a window's state: exactly the inputs of the
engine's `matrix_world`. -/
abbrev Transform := (ℚ × ℚ × ℚ) × Vec3 × (ℚ × ℚ × ℚ)

/-- Extract the transform (scale, location, rotation) of a window. -/
def transformOf (w : WinObj) : Transform := (w.scale, w.loc, w.rotDeg)

/-- External collaborator: `plane_world_corners(ob)` =
`[ob.matrix_world @ v.co for v in ob.data.vertices[:4]]`.  The world
matrix is a function of the transform only, so the collaborator is any
function of type `Transform → List Vec3`. -/
abbrev WorldCorners := Transform → List Vec3

/-- One candidate draw of `sample_window_pose_and_size`: a size, a board
center `(cx, cy, 0)`, and a rotation triple in degrees. -/
structure Candidate where
  size : ℚ
  loc : Vec3
  rotDeg : ℚ × ℚ × ℚ
deriving DecidableEq, Repr

/-- The in-place pose application inside `ensure_in_fov`:
`win_obj.scale = (size*0.5, size*0.5, 1.0)`; `win_obj.location = loc`;
`win_obj.rotation_euler = radians(rdeg)`. -/
def applyPose (w : WinObj) (c : Candidate) : WinObj :=
  { w with scale := (c.size / 2, c.size / 2, 1), loc := c.loc, rotDeg := c.rotDeg }

/-- Result of `ensure_in_fov` (`data_generation_no_background.py` lines
380-388): the returned flag and 2D center, plus the window state the
procedure leaves behind (the Python mutates `win_obj` in place). -/
structure FovResult where
  ok : Bool
  state : WinObj
  center : ℚ × ℚ
deriving DecidableEq, Repr

/-- `ensure_in_fov(cam, win_obj, max_tries)`: each loop iteration draws a
candidate (one element of the random stream `cands`, whose length models
`max_tries`), applies it to the window, and returns success on the first
candidate whose 4 world corners all pass the visibility test.  On
exhaustion it returns `False` with center `(0.0, 0.0)`, leaving the
last-tried pose on the window. -/
def ensure_in_fov (p : Proj) (wc : WorldCorners) :
    List Candidate → WinObj → FovResult
  | [], w => ⟨false, w, (0, 0)⟩
  | c :: rest, w =>
    let w1 := applyPose w c
    if all_corners_in_frame p (wc (transformOf w1)) then
      ⟨true, w1, (c.loc.x, c.loc.y)⟩
    else
      ensure_in_fov p wc rest w1

/- ----------------------------------------------------------------
Render-loop per-window body (fallback handling) — single-camera variants.
---------------------------------------------------------------- -/

/-- The two `hide` assignments at the top of the per-window loop body
(`w.hide_render = False; w.hide_viewport = False`). -/
def activateWin (w : WinObj) : WinObj :=
  { w with hideRender := false, hideViewport := false }

/-- The fallback assignment of the render loop
(`data_generation_no_background.py` lines 421-424, identical in
`data_generation_with_background.py` lines 437-440):
`w.scale = (0.35, 0.35, 1.0)`; `w.location = (0,0,0)`;
`w.rotation_euler = (0,0,0)`. -/
def fallbackApply (w : WinObj) : WinObj :=
  { w with scale := (7/20, 7/20, 1), loc := ⟨0, 0, 0⟩, rotDeg := (0, 0, 0) }

/-- The per-window render-loop body (lines 417-425): unhide the window,
run `ensure_in_fov`, and on failure overwrite the pose with the fallback;
the window is appended to `visible_windows` in either case. -/
def processWindow (p : Proj) (wc : WorldCorners) (cands : List Candidate)
    (w : WinObj) : WinObj :=
  let r := ensure_in_fov p wc cands (activateWin w)
  if r.ok then r.state else fallbackApply r.state

/- ----------------------------------------------------------------
Skew sampling (`sample_window_pose_and_size`, lines 361-378).
---------------------------------------------------------------- -/

/-- `val = MIN_SKEW_DEG * (1 if random.random() > 0.5 else -1)`; the
boolean input models the comparison result. -/
def skewVal (coin : Bool) : ℚ := if coin then MIN_SKEW_DEG else -MIN_SKEW_DEG

/-- `random_skew()` (inner function of `sample_window_pose_and_size`):
given the three uniform draws and, for the forcing branch, the chosen
axis (`random.choice([0,1,2])`) and sign coin: if all three sampled
rotations are below `MIN_SKEW_DEG` in absolute value, force the chosen
axis to `±MIN_SKEW_DEG`. -/
def random_skew (rx ry rz : ℚ) (axis : Fin 3) (coin : Bool) : ℚ × ℚ × ℚ :=
  if max (max |rx| |ry|) |rz| < MIN_SKEW_DEG then
    if axis.val = 0 then (skewVal coin, ry, rz)
    else if axis.val = 1 then (rx, skewVal coin, rz)
    else (rx, ry, skewVal coin)
  else (rx, ry, rz)

/-- `sample_window_pose_and_size()`: returns
`(size, (cx, cy, 0.0), random_skew())`, with the uniform draws passed in
as explicit inputs. -/
def sample_window_pose_and_size (size cx cy rx ry rz : ℚ) (axis : Fin 3)
    (coin : Bool) : ℚ × (ℚ × ℚ × ℚ) × (ℚ × ℚ × ℚ) :=
  (size, (cx, cy, 0), random_skew rx ry rz axis coin)

/- ----------------------------------------------------------------
Scene state and the RGB/MASK passes (single-camera variants).
---------------------------------------------------------------- -/

/-- `scene.render.image_settings.color_mode` values used by the scripts. -/
inductive ColorMode
  | RGB
  | RGBA
  | BW
deriving DecidableEq, Repr

/-- The world (environment) background configuration: as initialized, or
the flat-black node setup installed by the MASK pass. -/
inductive WorldBG
  | initial
  | blackWorld
deriving DecidableEq, Repr

/-- An occluder cube's attributes read or written within a frame. -/
structure OccObj where
  scale : ℚ × ℚ × ℚ
  loc : Vec3
  materials : List Mat
deriving DecidableEq, Repr

/-- The scene state of a frame of the single-camera variants after
randomization: the `visible_windows` list, the occluders spawned for the
frame, and the render/world settings the passes toggle. -/
structure SceneState where
  windows : List WinObj
  occluders : List OccObj
  filmTransparent : Bool
  colorMode : ColorMode
  world : WorldBG
deriving DecidableEq, Repr

/-- RGB-pass entry (`data_generation_no_background.py` lines 431-437):
`film_transparent = True`, `color_mode = 'RGBA'`, and every visible
window's material slots replaced by the RGB emission material.  The
render call itself is an external collaborator that reads, but does not
write, this state. -/
def rgbPass (s : SceneState) : SceneState :=
  { s with filmTransparent := true, colorMode := ColorMode.RGBA,
           windows := s.windows.map (fun w => { w with materials := [Mat.winRGB] }) }

/-- MASK-pass entry (lines 440-461): `film_transparent = True`,
`color_mode = 'BW'`, the world rebuilt as a flat-black background, every
visible window's materials replaced by the union mask material, and every
occluder's materials replaced by the black emission material (the
source's `if o.type == 'MESH'` guard always holds: occluders are created
as meshes). -/
def maskPass (s : SceneState) : SceneState :=
  { s with filmTransparent := true, colorMode := ColorMode.BW,
           world := WorldBG.blackWorld,
           windows := s.windows.map (fun w => { w with materials := [Mat.winMask] }),
           occluders := s.occluders.map (fun o => { o with materials := [Mat.blackEmission] }) }

/-- One keypoint record (lines 468-476): the window's name together with
`order_tl_tr_br_bl(project_to_pixels(cam, plane_world_corners(w), W, H))`. -/
def recordOf (p : Proj) (wc : WorldCorners) (w : WinObj) : String × List Pix :=
  (w.name, order_tl_tr_br_bl (project_to_pixels p (wc (transformOf w)) IMG_RES.1 IMG_RES.2))

/-- The keypoint computation of a frame (lines 466-476): one record per
visible window, in list order. -/
def computeKeypoints (p : Proj) (wc : WorldCorners) (s : SceneState) :
    List (String × List Pix) :=
  s.windows.map (recordOf p wc)

/- ----------------------------------------------------------------
Multi-camera variant: exclusion toggles and per-camera passes.
---------------------------------------------------------------- -/

/-- The five `LayerCollection.exclude` flags toggled by
`set_excludes_for_rgb` / `set_excludes_for_mask` (`data_generator.py`
lines 86-100).  `true` means the collection is excluded from the render. -/
structure Excl where
  backdrop : Bool
  occluders : Bool
  windowsRGB : Bool
  windowsMASK : Bool
  misc : Bool
deriving DecidableEq, Repr

/-- `set_excludes_for_rgb()`: backdrop, occluders, RGB windows and misc
included; mask twins excluded. -/
def set_excludes_for_rgb : Excl :=
  { backdrop := false, occluders := false, windowsRGB := false,
    windowsMASK := true, misc := false }

/-- `set_excludes_for_mask()`: backdrop and mask twins included;
occluders, RGB windows and misc excluded. -/
def set_excludes_for_mask : Excl :=
  { backdrop := false, occluders := true, windowsRGB := true,
    windowsMASK := false, misc := true }

/-- One RGB/MASK window pair of the multi-camera variant. -/
structure PairObj where
  r : WinObj
  m : WinObj
deriving DecidableEq, Repr

/-- Scene state of the multi-camera variant inside the per-camera loop. -/
structure GenState where
  pairs : List PairObj
  excl : Excl
  colorMode : ColorMode
  camIdx : ℕ
deriving DecidableEq, Repr

/-- Per-camera RGB pass entry (`data_generator.py` lines 322-330):
select the camera, set `color_mode = 'RGB'`, apply the RGB exclusion
toggles.  The render call is external and does not write this state. -/
def genRgbPass (ci : ℕ) (s : GenState) : GenState :=
  { s with camIdx := ci, colorMode := ColorMode.RGB, excl := set_excludes_for_rgb }

/-- Per-camera MASK pass entry (lines 332-336): set `color_mode = 'BW'`,
apply the MASK exclusion toggles. -/
def genMaskPass (s : GenState) : GenState :=
  { s with colorMode := ColorMode.BW, excl := set_excludes_for_mask }

/-- Keypoint records of the multi-camera variant (lines 338-344): one
record per non-hidden RGB window, via `project_pixels` (no flip). -/
def genKeypoints (p : Proj) (wc : WorldCorners) (s : GenState) :
    List (String × List Pix) :=
  (s.pairs.filter (fun pr => !pr.r.hideRender)).map (fun pr =>
    (pr.r.name,
     order_tl_tr_br_bl (project_pixels p (wc (transformOf pr.r)) IMG_RES.1 IMG_RES.2)))

/- ----------------------------------------------------------------
Non-overlapping center sampling and window placement
(`data_generator.py` lines 266-285).
---------------------------------------------------------------- -/

/-- A 2D board point. -/
abbrev P2 := ℚ × ℚ

/-- Squared 2D distance. -/
def sqDist (c q : P2) : ℚ := (c.1 - q.1) ^ 2 + (c.2 - q.2) ^ 2

/-- The acceptance test of `sample_nonoverlap`:
`((c[0]-x)**2 + (c[1]-y)**2)**0.5 >= d` for one existing point —
modelled by the equivalent squared comparison `d^2 ≤ sqDist c q`
(equivalent for the nonnegative configured `d = 0.38`, since both sides
of the source comparison are then nonnegative). -/
def sepOk (c q : P2) (d : ℚ) : Bool := decide (d ^ 2 ≤ sqDist c q)

/-- The `while` loop of `sample_nonoverlap`: each iteration consumes one
uniform draw from the candidate stream; a candidate far enough from every
accepted point is appended.  The loop exits when `n` points are accepted
or the stream (already truncated to the global attempt budget) is
exhausted. -/
def sample_nonoverlap_go (n : ℕ) (d : ℚ) : List P2 → List P2 → List P2
  | [], pts => pts
  | c :: rest, pts =>
    if pts.length < n then
      if pts.all (fun q => sepOk c q d) then
        sample_nonoverlap_go n d rest (pts ++ [c])
      else
        sample_nonoverlap_go n d rest pts
    else pts

/-- `sample_nonoverlap(n, d=0.38)`: the candidate stream is truncated to
the `tries < 250` global budget. -/
def sample_nonoverlap (n : ℕ) (d : ℚ) (cands : List P2) : List P2 :=
  sample_nonoverlap_go n d (cands.take 250) []

/-- The per-pair uniform draws of the visible branch of `place_windows`:
rotations (radians), scale, and z jitter. -/
structure PairPoseRand where
  rx : ℚ
  ry : ℚ
  rz : ℚ
  s : ℚ
  z : ℚ
deriving DecidableEq, Repr

/-- The loop body of `place_windows` (lines 275-284) for one pair at
index `idx`: pairs with `idx < len(centers)` are unhidden and the RGB
object is posed at `centers[idx]`; the rest are hidden (both objects). -/
def placePair (poses : ℕ → PairPoseRand) (centers : List P2) (idx : ℕ)
    (pr : PairObj) : PairObj :=
  if h : idx < centers.length then
    let c := centers.get ⟨idx, h⟩
    let q := poses idx
    { r := { pr.r with
              hideViewport := false
              hideRender := false
              rotDeg := (q.rx, q.ry, q.rz)
              scale := (q.s, q.s, q.s)
              loc := ⟨c.1, c.2, q.z⟩ }
      m := { pr.m with hideViewport := false, hideRender := false } }
  else
    { r := { pr.r with hideViewport := true, hideRender := true }
      m := { pr.m with hideViewport := true, hideRender := true } }

/-- The `enumerate(pairs)` loop of `place_windows`. -/
def placeLoop (poses : ℕ → PairPoseRand) (centers : List P2) :
    ℕ → List PairObj → List PairObj
  | _, [] => []
  | idx, pr :: rest =>
    placePair poses centers idx pr :: placeLoop poses centers (idx + 1) rest

/-- `sync_twins()` (lines 224-228): copy each RGB object's transform onto
its mask twin (all pairs, hidden ones included). -/
def sync_twins (prs : List PairObj) : List PairObj :=
  prs.map (fun pr =>
    { pr with
        m := { pr.m with
                scale := pr.r.scale
                loc := pr.r.loc
                rotDeg := pr.r.rotDeg } })

/-- `place_windows(n)` (lines 273-285): sample centers with the default
minimum separation, pose/hide the pairs, then `sync_twins()`. -/
def place_windows (poses : ℕ → PairPoseRand) (cands : List P2) (n : ℕ)
    (prs : List PairObj) : List PairObj :=
  sync_twins (placeLoop poses (sample_nonoverlap n NONOVERLAP_MIN_SEP cands) 0 prs)

/-- A window pair counts as visible when its render flags are cleared. -/
def pairVisible (pr : PairObj) : Bool := !pr.r.hideRender && !pr.m.hideRender

/-- A window pair is fully hidden: all four hide flags set. -/
def pairHiddenB (pr : PairObj) : Bool :=
  pr.r.hideRender && pr.r.hideViewport && pr.m.hideRender && pr.m.hideViewport

/- ----------------------------------------------------------------
Frame pipeline of `data_generation_no_background.py` (lines 404-485):
window pool, per-frame randomization, the two passes, and the keypoint
records.  Lighting and occluder spawning consume PRNG draws but are not
read by the keypoint computation; the per-frame random inputs modelled
here are exactly the ones the keypoint records depend on.
---------------------------------------------------------------- -/

/-- `create_window_plane(size, name=f"Window_.{k}")` as linked into the
pool by `get_or_make_windows`: default transform apart from the sampled
creation scale, RGB material assigned. -/
def mkWindow (sz : ℚ) (k : ℕ) : WinObj :=
  { name := "Window_" ++ toString k
    scale := (sz / 2, sz / 2, 1)
    loc := ⟨0, 0, 0⟩
    rotDeg := (0, 0, 0)
    hideRender := false
    hideViewport := false
    materials := [Mat.winRGB] }

/-- `get_or_make_windows(n_needed)` (lines 391-401): extend the pool to
`n` windows (creation sizes drawn from the stream `newSizes`, modelled as
a list read by position with a default for exhaustion — the real stream
is unbounded), then set `hide_render = hide_viewport = True` on every
pool window. -/
def get_or_make_windows (newSizes : List ℚ) (pool : List WinObj) (n : ℕ) :
    List WinObj :=
  let grown := pool ++ (List.range (n - pool.length)).map
    (fun j => mkWindow (newSizes.getD j 1) (pool.length + j + 1))
  grown.map (fun w => { w with hideRender := true, hideViewport := true })

/-- The per-frame PRNG draws that the frame's keypoint records depend
on: the camera standoff distance, the window count, the creation sizes
of any newly pooled windows, and one candidate stream per window slot. -/
structure FrameRand where
  camDist : ℚ
  nWindows : ℕ
  newSizes : List ℚ
  winStreams : List (List Candidate)
deriving DecidableEq, Repr

/-- Positional map carrying the element index (the `windows[:n_windows]`
loop pairs each window with its own run of PRNG draws). -/
def mapWithIndex (f : ℕ → α → β) : ℕ → List α → List β
  | _, [] => []
  | i, a :: l => f i a :: mapWithIndex f (i + 1) l

/-- One frame of the render loop, restricted to the state the keypoint
records can observe: reposition the camera (`projAt fr.camDist` is the
resulting projection), rebuild the pool, run the per-window in-FOV
sampling with fallback, enter the RGB pass then the MASK pass, and
compute the keypoint records.  Returns the pool left for the next frame
and the frame's records. -/
def frameStep (projAt : ℚ → Proj) (wc : WorldCorners) (pool : List WinObj)
    (fr : FrameRand) : List WinObj × List (String × List Pix) :=
  let p := projAt fr.camDist
  let pool1 := get_or_make_windows fr.newSizes pool fr.nWindows
  let vis := mapWithIndex
    (fun i w => processWindow p wc (fr.winStreams.getD i []) w) 0
    (pool1.take fr.nWindows)
  let sc := maskPass (rgbPass
    { windows := vis, occluders := [], filmTransparent := false,
      colorMode := ColorMode.RGB, world := WorldBG.initial })
  (sc.windows ++ pool1.drop fr.nWindows, computeKeypoints p wc sc)

/-- The full render loop: fold `frameStep` over the per-frame PRNG
draws, emitting one record list per frame. -/
def runFrames (projAt : ℚ → Proj) (wc : WorldCorners) :
    List WinObj → List FrameRand → List (List (String × List Pix))
  | _, [] => []
  | pool, fr :: rest =>
    let st := frameStep projAt wc pool fr
    st.2 :: runFrames projAt wc st.1 rest

/- ----------------------------------------------------------------
Auxiliary extraction and concrete sample data (used by witnesses).
---------------------------------------------------------------- -/

/-- The geometric part of an occluder's state. -/
def occTransformOf (o : OccObj) : (ℚ × ℚ × ℚ) × Vec3 := (o.scale, o.loc)

/-- A concrete pooled window in its hidden rest state. -/
def demoWin : WinObj :=
  { name := "Window_1", scale := (1/4, 1/4, 1), loc := ⟨0, 0, 0⟩,
    rotDeg := (0, 0, 0), hideRender := true, hideViewport := true,
    materials := [Mat.winRGB] }

/-- A concrete RGB/MASK window pair. -/
def demoPair : PairObj := { r := demoWin, m := demoWin }

/-- A concrete candidate pose draw. -/
def demoCand : Candidate := { size := 7/10, loc := ⟨0, 0, 0⟩, rotDeg := (6, 0, 0) }

/-- A projection under which every world point is visible at the image
center with unit depth. -/
def demoProjIn : Proj := fun _ => ⟨1/2, 1/2, 1⟩

/-- A projection under which every world point lies outside the view
rectangle and behind the camera. -/
def demoProjOut : Proj := fun _ => ⟨2, -1, -1⟩

/-- A concrete world-corner collaborator: four copies of the window's
location. -/
def demoCorners : WorldCorners := fun t => [t.2.1, t.2.1, t.2.1, t.2.1]

/-- A concrete multi-camera scene state before the per-camera passes. -/
def demoGenState : GenState :=
  { pairs := [demoPair], excl := set_excludes_for_rgb,
    colorMode := ColorMode.RGB, camIdx := 0 }

/-- Concrete per-frame PRNG draws: one window, one candidate. -/
def demoFrameRand : FrameRand :=
  { camDist := 5, nWindows := 1, newSizes := [], winStreams := [[demoCand]] }

/- ----------------------------------------------------------------
Shared helper lemmas.
---------------------------------------------------------------- -/

/-- `ensure_in_fov` only rewrites the pose of the window: name, hide
flags and material slots are those of the input window. -/
theorem ensure_in_fov_preserves_nonpose (p : Proj) (wc : WorldCorners)
    (cands : List Candidate) (w : WinObj) :
    (ensure_in_fov p wc cands w).state.name = w.name ∧
    (ensure_in_fov p wc cands w).state.hideRender = w.hideRender ∧
    (ensure_in_fov p wc cands w).state.hideViewport = w.hideViewport ∧
    (ensure_in_fov p wc cands w).state.materials = w.materials := by
  induction cands generalizing w with
  | nil => exact ⟨rfl, rfl, rfl, rfl⟩
  | cons c rest ih =>
    simp only [ensure_in_fov]
    by_cases hc : all_corners_in_frame p (wc (transformOf (applyPose w c))) = true
    · rw [if_pos hc]
      exact ⟨rfl, rfl, rfl, rfl⟩
    · rw [if_neg hc]
      exact ih (applyPose w c)

/- ----------------------------------------------------------------
Claim theorems.
---------------------------------------------------------------- -/

/-- C1: whenever `ensure_in_fov` reports success, the pose it leaves on
the window has all corners projecting to normalized coordinates with
`0 ≤ u ≤ 1`, `0 ≤ v ≤ 1` and `depth > 0` — for every camera projection,
every world-corner collaborator, every candidate stream (i.e. every
attempt budget) and every starting window state; it never reports
success for a pose failing `all_corners_in_frame`. -/
theorem ensure_in_fov_accepts_only_in_frame (p : Proj) (wc : WorldCorners)
    (cands : List Candidate) (w : WinObj)
    (h : (ensure_in_fov p wc cands w).ok = true) :
    all_corners_in_frame p
      (wc (transformOf (ensure_in_fov p wc cands w).state)) = true := by
  induction cands generalizing w with
  | nil => simp [ensure_in_fov] at h
  | cons c rest ih =>
    simp only [ensure_in_fov] at h ⊢
    by_cases hc : all_corners_in_frame p (wc (transformOf (applyPose w c))) = true
    · rw [if_pos hc]
      exact hc
    · rw [if_neg hc] at h ⊢
      exact ih (applyPose w c) h

/-- Witness for C1: a concrete run in which the sampler succeeds on its
first candidate, with the accepted pose passing the corner test. -/
theorem ensure_in_fov_accepts_only_in_frame_witness :
    (ensure_in_fov demoProjIn demoCorners [demoCand] demoWin).ok = true ∧
    all_corners_in_frame demoProjIn
      (demoCorners (transformOf
        (ensure_in_fov demoProjIn demoCorners [demoCand] demoWin).state)) = true :=
  ⟨by with_unfolding_all decide,
   ensure_in_fov_accepts_only_in_frame demoProjIn demoCorners [demoCand] demoWin
     (by with_unfolding_all decide)⟩

/-- C2 (amended): for the single-camera variants, the pixel-mapping step
agrees exactly with the spec's `to_pixel` formula —
`x = round(u·(W-1))` clamped into `[0, W-1]` and `y = round((1-v)·(H-1))`
clamped into `[0, H-1]` (vertical flip) — for every input and every
positive resolution.  (The multi-camera variant does not satisfy this:
see the counterexample theorem.) -/
theorem project_to_pixels_matches_to_pixel_spec (uvw : Vec3) (W H : ℕ)
    (hW : 1 ≤ W) (hH : 1 ≤ H) :
    pixel_of_uvw uvw W H = to_pixel_spec uvw.x uvw.y W H := by
  have hW' : (1 : ℤ) ≤ (W : ℤ) := by exact_mod_cast hW
  have hH' : (1 : ℤ) ≤ (H : ℤ) := by exact_mod_cast hH
  simp only [pixel_of_uvw, to_pixel_spec, clampI, Prod.mk.injEq]
  constructor <;> omega

/-- Witness for C2: the agreement evaluated at the run's resolution
`640 × 648` on a concrete projected point. -/
theorem project_to_pixels_matches_to_pixel_spec_witness :
    1 ≤ 640 ∧ 1 ≤ 648 ∧
    pixel_of_uvw ⟨1/4, 3/4, 2⟩ 640 648 = to_pixel_spec (1/4) (3/4) 640 648 ∧
    pixel_of_uvw ⟨1/4, 3/4, 2⟩ 640 648 = (160, 162) :=
  ⟨by decide, by decide,
   project_to_pixels_matches_to_pixel_spec ⟨1/4, 3/4, 2⟩ 640 648
     (by decide) (by decide),
   by with_unfolding_all decide⟩

/-- Counterexample for C2: the multi-camera variant's `project_pixels`
omits the vertical flip.  At `(u, v) = (0, 1)` — the top-left corner of
the normalized image plane — it returns pixel `y = 647` instead of the
`y = 0` required by the claimed formula at resolution `640 × 648`. -/
theorem project_pixels_gen_breaks_flip :
    pixel_of_uvw_gen ⟨0, 1, 1⟩ 640 648 = (0, 647) ∧
    to_pixel_spec 0 1 640 648 = (0, 0) ∧
    pixel_of_uvw_gen ⟨0, 1, 1⟩ 640 648 ≠ to_pixel_spec 0 1 640 648 := by
  refine ⟨by with_unfolding_all decide, by with_unfolding_all decide, ?_⟩
  with_unfolding_all decide

/-- C3: `order_tl_tr_br_bl` evaluated at a concrete axis-aligned
4-point pixel rectangle (pixel-space y grows downward).  The sort key
`(-y, x)` puts the two LARGEST-y (bottommost) points first, so the
function returns `[BL, BR, TR, TL]` in visual terms — contradicting both
the claim and the source's own comments ("reorder to TL, TR, BR, BL in
pixel space", "top first"): the first two returned points are the two
largest-y points, not the two smallest-y ones. -/
theorem order_tl_tr_br_bl_bottom_pair_first :
    order_tl_tr_br_bl [(0, 0), (1, 0), (0, 10), (1, 10)]
      = [(0, 10), (1, 10), (1, 0), (0, 0)] := by decide

/-- C4: across the RGB-pass entry, the RGB render, the MASK-pass entry
and the MASK render, no window or occluder transform changes — the
passes rewrite only materials, visibility/exclusion flags and
render/world settings — so the keypoints computed after the passes equal
the keypoints of the frozen post-randomization geometry.  Holds for the
single-camera material-swap passes and for the multi-camera
collection-toggling passes (whose per-camera pass sequence leaves the
window pairs entirely unchanged). -/
theorem passes_preserve_frozen_geometry (p : Proj) (wc : WorldCorners)
    (s : SceneState) (ci : ℕ) (g : GenState) :
    (maskPass (rgbPass s)).windows.map transformOf
        = s.windows.map transformOf
    ∧ (maskPass (rgbPass s)).occluders.map occTransformOf
        = s.occluders.map occTransformOf
    ∧ computeKeypoints p wc (maskPass (rgbPass s)) = computeKeypoints p wc s
    ∧ (genMaskPass (genRgbPass ci g)).pairs = g.pairs := by
  refine ⟨?_, ?_, ?_, rfl⟩
  · simp only [maskPass, rgbPass, List.map_map]
    rfl
  · simp only [maskPass, rgbPass, List.map_map]
    rfl
  · simp only [computeKeypoints, maskPass, rgbPass, List.map_map]
    rfl

/-- Squared distance is symmetric. -/
theorem sqDist_comm (a b : P2) : sqDist a b = sqDist b a := by
  simp only [sqDist]
  ring

/-- The sampling loop preserves pairwise separation of the accumulated
points: every appended candidate was checked against every point already
accepted. -/
theorem sample_nonoverlap_go_pairwise (n : ℕ) (d : ℚ) (cands : List P2) :
    ∀ pts : List P2, pts.Pairwise (fun a b => d ^ 2 ≤ sqDist a b) →
      (sample_nonoverlap_go n d cands pts).Pairwise
        (fun a b => d ^ 2 ≤ sqDist a b) := by
  induction cands with
  | nil => intro pts h; exact h
  | cons c rest ih =>
    intro pts h
    simp only [sample_nonoverlap_go]
    by_cases h1 : pts.length < n
    · rw [if_pos h1]
      by_cases h2 : pts.all (fun q => sepOk c q d) = true
      · rw [if_pos h2]
        apply ih
        rw [List.pairwise_append]
        refine ⟨h, List.pairwise_singleton _ _, ?_⟩
        intro a ha b hb
        simp only [List.mem_singleton] at hb
        subst hb
        have h3 := List.all_eq_true.mp h2 a ha
        simp only [sepOk, decide_eq_true_eq] at h3
        rw [sqDist_comm]
        exact h3
      · rw [if_neg h2]
        exact ih pts h
    · rw [if_neg h1]
      exact h

/-- The sampling loop never grows the accumulator beyond `n` points. -/
theorem sample_nonoverlap_go_length (n : ℕ) (d : ℚ) (cands : List P2) :
    ∀ pts : List P2, pts.length ≤ n →
      (sample_nonoverlap_go n d cands pts).length ≤ n := by
  induction cands with
  | nil => intro pts h; exact h
  | cons c rest ih =>
    intro pts h
    simp only [sample_nonoverlap_go]
    by_cases h1 : pts.length < n
    · rw [if_pos h1]
      by_cases h2 : pts.all (fun q => sepOk c q d) = true
      · rw [if_pos h2]
        apply ih
        simp only [List.length_append, List.length_singleton]
        omega
      · rw [if_neg h2]
        exact ih pts h
    · rw [if_neg h1]
      exact h

/-- Count of visible pairs after the `enumerate(pairs)` placement loop
starting at index `idx`. -/
theorem placeLoop_countP (poses : ℕ → PairPoseRand) (centers : List P2) :
    ∀ (prs : List PairObj) (idx : ℕ),
      (placeLoop poses centers idx prs).countP pairVisible
        = min (centers.length - idx) prs.length := by
  intro prs
  induction prs with
  | nil => intro idx; simp [placeLoop]
  | cons pr rest ih =>
    intro idx
    simp only [placeLoop, List.countP_cons, List.length_cons]
    by_cases h : idx < centers.length
    · have hv : pairVisible (placePair poses centers idx pr) = true := by
        simp [placePair, h, pairVisible]
      rw [ih (idx + 1), hv]
      simp
      omega
    · have hv : pairVisible (placePair poses centers idx pr) = false := by
        simp [placePair, h, pairVisible]
      rw [ih (idx + 1), hv]
      simp only [Bool.false_eq_true, if_false]
      omega

/-- Every pair produced by the placement loop is the image of
`placePair` at some index. -/
theorem placeLoop_shape (poses : ℕ → PairPoseRand) (centers : List P2) :
    ∀ (prs : List PairObj) (idx : ℕ) (q : PairObj),
      q ∈ placeLoop poses centers idx prs →
        ∃ i pr, q = placePair poses centers i pr := by
  intro prs
  induction prs with
  | nil => intro idx q hq; simp [placeLoop] at hq
  | cons pr rest ih =>
    intro idx q hq
    simp only [placeLoop, List.mem_cons] at hq
    rcases hq with h | h
    · exact ⟨idx, pr, h⟩
    · exact ih (idx + 1) q h

/-- Each placed pair is either fully visible or fully hidden. -/
theorem placePair_vis_or_hidden (poses : ℕ → PairPoseRand) (centers : List P2)
    (idx : ℕ) (pr : PairObj) :
    (pairVisible (placePair poses centers idx pr)
      || pairHiddenB (placePair poses centers idx pr)) = true := by
  by_cases h : idx < centers.length <;>
    simp [placePair, h, pairVisible, pairHiddenB]

/-- `sync_twins` copies transforms only: visibility counting is
unchanged. -/
theorem sync_twins_countP_visible (prs : List PairObj) :
    (sync_twins prs).countP pairVisible = prs.countP pairVisible := by
  simp only [sync_twins, List.countP_map]
  rfl

/-- C5: every pair of centers accepted by `sample_nonoverlap` is at
least the configured minimum separation apart (stated with squared
distances, equivalent to the source's Euclidean comparison for the
nonnegative configured separation); the sampler returns at most `n`
centers and can return fewer when the attempt budget runs out; and
`place_windows` makes exactly as many pairs visible as the sampler
returned centers, fully hiding every other pair. -/
theorem sample_nonoverlap_separation_and_placement :
    (∀ (n : ℕ) (d : ℚ) (cands : List P2),
        (sample_nonoverlap n d cands).Pairwise (fun a b => d ^ 2 ≤ sqDist a b)
        ∧ (sample_nonoverlap n d cands).length ≤ n)
    ∧ (sample_nonoverlap 2 NONOVERLAP_MIN_SEP []).length < 2
    ∧ (∀ (poses : ℕ → PairPoseRand) (cands : List P2) (n : ℕ)
         (prs : List PairObj), n ≤ prs.length →
         (place_windows poses cands n prs).countP pairVisible
             = (sample_nonoverlap n NONOVERLAP_MIN_SEP cands).length
         ∧ (place_windows poses cands n prs).all
             (fun pr => pairVisible pr || pairHiddenB pr) = true) := by
  refine ⟨?_, by with_unfolding_all decide, ?_⟩
  · intro n d cands
    exact ⟨sample_nonoverlap_go_pairwise n d (cands.take 250) [] List.Pairwise.nil,
           sample_nonoverlap_go_length n d (cands.take 250) [] (Nat.zero_le n)⟩
  · intro poses cands n prs hn
    constructor
    · simp only [place_windows]
      rw [sync_twins_countP_visible, placeLoop_countP]
      have hL : (sample_nonoverlap n NONOVERLAP_MIN_SEP cands).length ≤ n :=
        sample_nonoverlap_go_length n NONOVERLAP_MIN_SEP (cands.take 250) []
          (Nat.zero_le n)
      omega
    · simp only [place_windows]
      rw [List.all_eq_true]
      intro x hx
      simp only [sync_twins, List.mem_map] at hx
      obtain ⟨q, hq, rfl⟩ := hx
      obtain ⟨i, pr, rfl⟩ :=
        placeLoop_shape poses (sample_nonoverlap n NONOVERLAP_MIN_SEP cands)
          prs 0 q hq
      exact placePair_vis_or_hidden poses
        (sample_nonoverlap n NONOVERLAP_MIN_SEP cands) i pr

/-- Witness for C5: a concrete placement with one sampled center and a
two-pair pool — exactly one pair is made visible. -/
theorem sample_nonoverlap_separation_and_placement_witness :
    1 ≤ ([demoPair, demoPair] : List PairObj).length
    ∧ (place_windows (fun _ => ⟨0, 0, 0, 1, 0⟩) [(0, 0)] 1
        [demoPair, demoPair]).countP pairVisible
        = (sample_nonoverlap 1 NONOVERLAP_MIN_SEP [(0, 0)]).length
    ∧ (sample_nonoverlap 1 NONOVERLAP_MIN_SEP [(0, 0)]).length = 1 :=
  ⟨by decide,
   (sample_nonoverlap_separation_and_placement.2.2 (fun _ => ⟨0, 0, 0, 1, 0⟩)
     [(0, 0)] 1 [demoPair, demoPair] (by decide)).1,
   by with_unfolding_all decide⟩

/-- Length of an index-carrying map. -/
theorem mapWithIndex_length (f : ℕ → α → β) :
    ∀ (i : ℕ) (l : List α), (mapWithIndex f i l).length = l.length := by
  intro i l
  induction l generalizing i with
  | nil => rfl
  | cons a rest ih =>
    simp only [mapWithIndex, List.length_cons, ih]

/-- C6 (amended): when `ensure_in_fov` exhausts its candidate budget
without success, the caller overwrites the window with the deterministic
fallback pose — origin location, zero rotation and scale
`(0.35, 0.35, 1)` (side length `0.7`, which lies inside — not below —
the configured size range); the window stays unhidden and, because the
frame's visible-window list and keypoint records are built from every
requested window regardless of sampling success, the frame still emits
one record per requested window. -/
theorem fov_exhaustion_fallback :
    (∀ (p : Proj) (wc : WorldCorners) (cands : List Candidate) (w : WinObj),
        (ensure_in_fov p wc cands (activateWin w)).ok = false →
        processWindow p wc cands w =
          { name := w.name, scale := (7/20, 7/20, 1), loc := ⟨0, 0, 0⟩,
            rotDeg := (0, 0, 0), hideRender := false, hideViewport := false,
            materials := w.materials })
    ∧ (∀ (projAt : ℚ → Proj) (wc : WorldCorners) (pool : List WinObj)
         (fr : FrameRand),
         (frameStep projAt wc pool fr).2.length = fr.nWindows) := by
  constructor
  · intro p wc cands w h
    have hp := ensure_in_fov_preserves_nonpose p wc cands (activateWin w)
    simp only [processWindow]
    rw [h]
    simp only [Bool.false_eq_true, if_false, fallbackApply, WinObj.mk.injEq]
    exact ⟨hp.1, trivial, trivial, trivial, hp.2.1, hp.2.2.1, hp.2.2.2⟩
  · intro projAt wc pool fr
    simp only [frameStep, computeKeypoints, maskPass, rgbPass, List.length_map,
      mapWithIndex_length, List.length_take, get_or_make_windows,
      List.length_append, List.length_range]
    omega

/-- Witness for C6: a concrete exhaustion run (a one-candidate stream
whose pose is rejected by a camera that sees nothing) ending in the
fallback state. -/
theorem fov_exhaustion_fallback_witness :
    (ensure_in_fov demoProjOut demoCorners [demoCand]
        (activateWin demoWin)).ok = false
    ∧ processWindow demoProjOut demoCorners [demoCand] demoWin
        = { name := demoWin.name, scale := (7/20, 7/20, 1), loc := ⟨0, 0, 0⟩,
            rotDeg := (0, 0, 0), hideRender := false, hideViewport := false,
            materials := demoWin.materials } :=
  ⟨by with_unfolding_all decide,
   fov_exhaustion_fallback.1 demoProjOut demoCorners [demoCand] demoWin
     (by with_unfolding_all decide)⟩

/-- Counterexample for C6: the fallback scale `0.35` corresponds to side
length `0.7`, which lies inside the configured size range
`WINDOW_SIZE_RANGE = (0.50, 1.10)` — and `0.35` also lies inside the
range of sampled scale factors `[0.25, 0.55]` — so the fallback is not
"below the configured size range". -/
theorem fallback_scale_not_below_size_range :
    2 * (fallbackApply demoWin).scale.1 = 7/10
    ∧ WINDOW_SIZE_RANGE.1 ≤ 2 * (fallbackApply demoWin).scale.1
    ∧ 2 * (fallbackApply demoWin).scale.1 ≤ WINDOW_SIZE_RANGE.2
    ∧ ¬ (2 * (fallbackApply demoWin).scale.1 < WINDOW_SIZE_RANGE.1)
    ∧ WINDOW_SIZE_RANGE.1 / 2 ≤ (fallbackApply demoWin).scale.1
    ∧ (fallbackApply demoWin).scale.1 ≤ WINDOW_SIZE_RANGE.2 / 2 := by
  with_unfolding_all decide

/-- C7: every candidate returned by the pose sampler has at least one
rotation axis of absolute angle `≥ MIN_SKEW_DEG`; moreover the sampled
rotation is either returned unchanged, or — exactly when all three
sampled angles are below the minimum in absolute value — exactly one
axis (the drawn one) is replaced by exactly `±MIN_SKEW_DEG` while the
other two are left unchanged. -/
theorem pose_sampler_min_skew_floor (size cx cy rx ry rz : ℚ) (axis : Fin 3)
    (coin : Bool) :
    (sample_window_pose_and_size size cx cy rx ry rz axis coin).2.2
        = random_skew rx ry rz axis coin
    ∧ MIN_SKEW_DEG ≤ max (max |(random_skew rx ry rz axis coin).1|
        |(random_skew rx ry rz axis coin).2.1|)
        |(random_skew rx ry rz axis coin).2.2|
    ∧ (random_skew rx ry rz axis coin = (rx, ry, rz)
       ∨ (max (max |rx| |ry|) |rz| < MIN_SKEW_DEG
          ∧ |skewVal coin| = MIN_SKEW_DEG
          ∧ (random_skew rx ry rz axis coin = (skewVal coin, ry, rz)
             ∨ random_skew rx ry rz axis coin = (rx, skewVal coin, rz)
             ∨ random_skew rx ry rz axis coin = (rx, ry, skewVal coin)))) := by
  have habs : |skewVal coin| = MIN_SKEW_DEG := by
    cases coin <;> norm_num [skewVal, MIN_SKEW_DEG]
  have h1 : MIN_SKEW_DEG ≤ |skewVal coin| := le_of_eq habs.symm
  refine ⟨rfl, ?_, ?_⟩
  · by_cases hm : max (max |rx| |ry|) |rz| < MIN_SKEW_DEG
    · simp only [random_skew, if_pos hm]
      by_cases h0 : axis.val = 0
      · rw [if_pos h0]
        exact le_max_of_le_left (h1.trans (le_max_left _ _))
      · rw [if_neg h0]
        by_cases hx : axis.val = 1
        · rw [if_pos hx]
          exact le_max_of_le_left (h1.trans (le_max_right _ _))
        · rw [if_neg hx]
          exact le_max_of_le_right h1
    · simp only [random_skew, if_neg hm]
      exact le_of_not_lt hm
  · by_cases hm : max (max |rx| |ry|) |rz| < MIN_SKEW_DEG
    · refine Or.inr ⟨hm, habs, ?_⟩
      simp only [random_skew, if_pos hm]
      by_cases h0 : axis.val = 0
      · rw [if_pos h0]
        exact Or.inl rfl
      · rw [if_neg h0]
        by_cases hx : axis.val = 1
        · rw [if_pos hx]
          exact Or.inr (Or.inl rfl)
        · rw [if_neg hx]
          exact Or.inr (Or.inr rfl)
    · exact Or.inl (by simp only [random_skew, if_neg hm])

/-- C8 (amended): in the single-camera variants' MASK pass every visible
window carries the union mask material, every occluder the solid-black
emission material, and the world is forced to a flat-black background;
the multi-camera variant instead toggles collections — its MASK
configuration includes the mask-twin windows but excludes occluders and
misc entirely (occluders are dropped from, not blackened in, the mask
render) and keeps the backdrop included. -/
theorem mask_pass_configuration (s : SceneState) :
    (maskPass s).windows.all
        (fun w => decide (w.materials = [Mat.winMask])) = true
    ∧ (maskPass s).occluders.all
        (fun o => decide (o.materials = [Mat.blackEmission])) = true
    ∧ (maskPass s).world = WorldBG.blackWorld
    ∧ (maskPass s).colorMode = ColorMode.BW
    ∧ set_excludes_for_mask.windowsMASK = false
    ∧ set_excludes_for_mask.occluders = true
    ∧ set_excludes_for_mask.misc = true
    ∧ set_excludes_for_mask.backdrop = false := by
  refine ⟨?_, ?_, rfl, rfl, rfl, rfl, rfl, rfl⟩
  · rw [List.all_eq_true]
    intro x hx
    simp only [maskPass, List.mem_map] at hx
    obtain ⟨w, hw, rfl⟩ := hx
    simp
  · rw [List.all_eq_true]
    intro x hx
    simp only [maskPass, List.mem_map] at hx
    obtain ⟨o, ho, rfl⟩ := hx
    simp

/-- Counterexample for C8: in the multi-camera variant's MASK-pass
configuration the occluder collection is excluded from the render — the
occluders are not "configured to render as solid black" (they are not
rendered at all, so they cannot subtract occlusion from the mask) — and
the backdrop collection stays included rather than being forced to flat
black. -/
theorem gen_mask_pass_excludes_occluders :
    (genMaskPass (genRgbPass 1 demoGenState)).excl.occluders = true
    ∧ (genMaskPass (genRgbPass 1 demoGenState)).excl.backdrop = false
    ∧ ¬ ((genMaskPass (genRgbPass 1 demoGenState)).excl.occluders = false) := by
  refine ⟨rfl, rfl, ?_⟩
  intro hcontra
  simp [genMaskPass, genRgbPass, set_excludes_for_mask] at hcontra

/-- C9: with the PRNG streams, camera model, corner collaborator and
initial pool fixed, two generation runs produce identical keypoint
records for every frame — the embedded pipeline is a pure function of
the seeded PRNG draws and configuration, with the renderer treated as an
external collaborator that does not write the modelled state. -/
theorem generation_run_deterministic (projAt1 projAt2 : ℚ → Proj)
    (wc1 wc2 : WorldCorners) (pool1 pool2 : List WinObj)
    (frs1 frs2 : List FrameRand)
    (hp : projAt1 = projAt2) (hw : wc1 = wc2) (hpool : pool1 = pool2)
    (hfr : frs1 = frs2) :
    runFrames projAt1 wc1 pool1 frs1 = runFrames projAt2 wc2 pool2 frs2 := by
  subst hp
  subst hw
  subst hpool
  subst hfr
  rfl

/-- Witness for C9: a concrete one-frame run, equal to itself and
evaluating to a concrete record list. -/
theorem generation_run_deterministic_witness :
    runFrames (fun _ => demoProjIn) demoCorners [] [demoFrameRand]
      = runFrames (fun _ => demoProjIn) demoCorners [] [demoFrameRand]
    ∧ runFrames (fun _ => demoProjIn) demoCorners [] [demoFrameRand]
      = [[("Window_1",
           [(320, 324), (320, 324), (320, 324), (320, 324)])]] :=
  ⟨generation_run_deterministic (fun _ => demoProjIn) (fun _ => demoProjIn)
     demoCorners demoCorners [] [] [demoFrameRand] [demoFrameRand]
     rfl rfl rfl rfl,
   by with_unfolding_all decide⟩

/-- C10: for every projected point — including points behind the camera
(`depth ≤ 0`, which neither pixel function reads) or outside the
normalized view rectangle — both variants' pixel mappings return an
integer pixel clamped into `[0, W-1] × [0, H-1]`. -/
theorem projection_clamps_to_image_bounds (uvw : Vec3) (W H : ℕ)
    (hW : 1 ≤ W) (hH : 1 ≤ H) :
    (0 ≤ (pixel_of_uvw uvw W H).1 ∧ (pixel_of_uvw uvw W H).1 ≤ (W : ℤ) - 1
     ∧ 0 ≤ (pixel_of_uvw uvw W H).2 ∧ (pixel_of_uvw uvw W H).2 ≤ (H : ℤ) - 1)
    ∧ (0 ≤ (pixel_of_uvw_gen uvw W H).1
       ∧ (pixel_of_uvw_gen uvw W H).1 ≤ (W : ℤ) - 1
       ∧ 0 ≤ (pixel_of_uvw_gen uvw W H).2
       ∧ (pixel_of_uvw_gen uvw W H).2 ≤ (H : ℤ) - 1) := by
  have hW' : (1 : ℤ) ≤ (W : ℤ) := by exact_mod_cast hW
  have hH' : (1 : ℤ) ≤ (H : ℤ) := by exact_mod_cast hH
  simp only [pixel_of_uvw, pixel_of_uvw_gen, clampI]
  refine ⟨⟨?_, ?_, ?_, ?_⟩, ?_, ?_, ?_, ?_⟩ <;> omega

/-- Witness for C10: a world point behind the camera and far outside the
view rectangle still maps to clamped in-bounds pixels at `640 × 648`. -/
theorem projection_clamps_to_image_bounds_witness :
    1 ≤ 640 ∧ 1 ≤ 648
    ∧ pixel_of_uvw ⟨5, -3, -1⟩ 640 648 = (639, 647)
    ∧ pixel_of_uvw_gen ⟨5, -3, -1⟩ 640 648 = (639, 0)
    ∧ ((0 ≤ (pixel_of_uvw ⟨5, -3, -1⟩ 640 648).1
        ∧ (pixel_of_uvw ⟨5, -3, -1⟩ 640 648).1 ≤ (640 : ℤ) - 1
        ∧ 0 ≤ (pixel_of_uvw ⟨5, -3, -1⟩ 640 648).2
        ∧ (pixel_of_uvw ⟨5, -3, -1⟩ 640 648).2 ≤ (648 : ℤ) - 1)
       ∧ (0 ≤ (pixel_of_uvw_gen ⟨5, -3, -1⟩ 640 648).1
          ∧ (pixel_of_uvw_gen ⟨5, -3, -1⟩ 640 648).1 ≤ (640 : ℤ) - 1
          ∧ 0 ≤ (pixel_of_uvw_gen ⟨5, -3, -1⟩ 640 648).2
          ∧ (pixel_of_uvw_gen ⟨5, -3, -1⟩ 640 648).2 ≤ (648 : ℤ) - 1)) :=
  ⟨by decide, by decide,
   by with_unfolding_all decide,
   by with_unfolding_all decide,
   projection_clamps_to_image_bounds ⟨5, -3, -1⟩ 640 648
     (by decide) (by decide)⟩
